import Mathlib

/-!
Shallow embedding of the streaming query client and the per-chat rate limiter
of the Telegram Starknet support bot.

Sources embedded:
* `src/ai_client.py`, `StarknetAI.get_response` (lines 53-149): history
  formatting, the per-attempt WebSocket frame loop, the sources trailer,
  the empty-response fallback, and the 3-attempt retry loop with its
  fixed 1-second backoff and its two exhaustion fallback strings.
* `src/bot.py`, `RateLimiter.is_allowed` (lines 62-85) together with the
  constants `RATE_LIMIT_PER_CHAT` / `RATE_LIMIT_WINDOW` from `src/config.py`.

Modelling conventions: Python exceptions raised while an attempt is in
flight (connection failures, `json.loads` failures on malformed frames,
type errors on bad payloads) are represented by how the attempt's frame
stream terminates (`Termination.timeoutError` for `TimeoutError`,
`Termination.otherError` for every other exception); both are caught by
the `except` clauses of the retry loop.  Frames whose `type` discriminator
is none of `sources` / `message` / `messageEnd` / `error`, and non-TEXT
WebSocket messages, fall through every branch of the loop and are skipped:
both are modelled by `StreamEvent.unknown`.  Timestamps are integers
(seconds); `datetime` subtraction `now - t < timedelta(seconds=W)` becomes
the integer comparison `now - t < W`.
-/

/-- Metadata of a source reference; `url` is `""` when absent, mirroring
`source.get("metadata", {}).get("url", "")` (ai_client.py line 125). -/
structure Metadata where
  url : String
deriving DecidableEq, Repr

/-- One element of a `sources` frame's payload list. -/
structure SourceRef where
  metadata : Metadata
deriving DecidableEq, Repr

/-- Decoded WebSocket TEXT frames, keyed by the `data["type"]` discriminator
(ai_client.py lines 101-116).  `unknown` stands for frames with any other
discriminator and for non-TEXT messages, which the loop skips. -/
inductive StreamEvent where
  | sources (data : List SourceRef)
  | message (data : String)
  | messageEnd (messageId : Option String)
  | error
  | unknown
deriving DecidableEq, Repr

/-- How an attempt's frame stream ends when no terminal frame was seen:
the channel closes (the `async for` is exhausted), a `TimeoutError` is
raised, or some other exception is raised (connection failure, malformed
frame, bad payload type). -/
inductive Termination where
  | closed
  | timeoutError
  | otherError
deriving DecidableEq, Repr

/-- The remote service's behaviour during one attempt: the decoded frames
delivered, then how the stream terminates (only reached when no frame in
`events` is terminal). -/
structure AttemptInput where
  events : List StreamEvent
  term : Termination
deriving DecidableEq, Repr

/-- Fallback returned when a terminal `error` frame arrives on the final
attempt (ai_client.py line 119). -/
def error_fallback : String := "\x53orry, I encountered an error. Please try again."

/-- Fallback returned when the aggregated text is empty
(ai_client.py line 132, the `or` alternative). -/
def no_content_fallback : String := "I couldn\x27t generate a response. Please try again."

/-- Fallback returned when the third attempt raises `TimeoutError`
(ai_client.py line 137). -/
def timeout_fallback : String := "Response timeout. Please try with a shorter question."

/-- Fallback returned when the third attempt raises any other exception
(ai_client.py line 142). -/
def connect_fallback : String :=
  "I\x27m having trouble connecting to the knowledge base. Please try again."

/-- State update performed by one non-terminal iteration of the frame loop
(ai_client.py lines 101-104): a `sources` frame replaces the stored sources
with the first 3 of its payload, a `message` frame appends its payload to
the accumulated text, anything else leaves the state unchanged. -/
def stepEvent (st : String × List SourceRef) : StreamEvent → String × List SourceRef
  | .sources data => (st.1, data.take 3)
  | .message data => (st.1 ++ data, st.2)
  | _ => st

/-- Sources trailer built by ai_client.py lines 123-127: starting from the
literal marker, each enumerated source with a non-empty metadata url appends
a line numbered by its 1-based position in the stored list (a source without
a url is skipped but still consumes its position). -/
def sourcesTrailer (sources : List SourceRef) : String :=
  sources.enum.foldl
    (fun acc p =>
      if p.2.metadata.url = "" then acc
      else acc ++ "\n" ++ toString (p.1 + 1) ++ ". " ++ p.2.metadata.url)
    "\n\n📚 Sources:"

/-- Post-processing after the frame loop (ai_client.py lines 122-132):
append the trailer when both sources and text are non-empty, then replace
an empty result by the no-content fallback (`full_response or ...`). -/
def finish_response (full_response : String) (sources : List SourceRef) : String :=
  let r :=
    if sources ≠ [] ∧ full_response ≠ "" then full_response ++ sourcesTrailer sources
    else full_response
  if r = "" then no_content_fallback else r

/-- Result of one attempt: the `try` body returned a string, or an exception
escaped to the retry loop's `except` clauses (`timeout` tells which clause). -/
inductive AttemptOutcome where
  | returned (s : String)
  | raised (timeout : Bool)
deriving DecidableEq, Repr

/-- The frame loop of one attempt (ai_client.py lines 96-132).  `isFinal`
is `attempt == 2`.  A `messageEnd` frame breaks to the post-processing; an
`error` frame returns the error fallback on the final attempt and otherwise
also breaks to the post-processing (the `break` on line 120 exits only the
frame loop, landing on the unconditional `return` of line 132); stream
termination without a terminal frame either reaches the post-processing
(channel closed) or raises. -/
def consume_frames (isFinal : Bool) (st : String × List SourceRef) :
    List StreamEvent → Termination → AttemptOutcome
  | [], .closed => .returned (finish_response st.1 st.2)
  | [], .timeoutError => .raised true
  | [], .otherError => .raised false
  | .messageEnd _ :: _, _ => .returned (finish_response st.1 st.2)
  | .error :: _, _ =>
      if isFinal then .returned error_fallback else .returned (finish_response st.1 st.2)
  | ev :: rest, term => consume_frames isFinal (stepEvent st ev) rest term

/-- One attempt, started with empty text and empty sources
(ai_client.py lines 94-95). -/
def run_attempt (isFinal : Bool) (a : AttemptInput) : AttemptOutcome :=
  consume_frames isFinal ("", []) a.events a.term

/-- Seconds slept by `await asyncio.sleep(1)` between consecutive attempts
(ai_client.py lines 138 and 143). -/
def BACKOFF_SECONDS : Nat := 1

/-- Retry loop of `StarknetAI.get_response` (ai_client.py lines 74-149):
`for attempt in range(3)`, sleeping `BACKOFF_SECONDS` after each raised
non-final attempt; a raised final attempt returns the timeout or the
connection fallback.  The second component is the total seconds slept
before the call returned. -/
def get_response (a0 a1 a2 : AttemptInput) : String × Nat :=
  match run_attempt false a0 with
  | .returned s => (s, 0)
  | .raised _ =>
    match run_attempt false a1 with
    | .returned s => (s, BACKOFF_SECONDS)
    | .raised _ =>
      match run_attempt true a2 with
      | .returned s => (s, 2 * BACKOFF_SECONDS)
      | .raised t =>
          ((if t then timeout_fallback else connect_fallback), 2 * BACKOFF_SECONDS)

/-- One stored conversation turn as returned by the history store
(`role` and `message` columns; database.py lines 52-60). -/
structure HistTurn where
  role : String
  message : String
deriving DecidableEq, Repr

/-- History formatting of ai_client.py lines 59-63: keep the last 6 turns
(`history[-6:]`, oldest first) and map each to `[role, message]` with
platform role `"user"` becoming `"human"` and anything else `"ai"`. -/
def formatted_history (history : List HistTurn) : List (String × String) :=
  (history.drop (history.length - 6)).map
    (fun m => ((if m.role = "user" then "human" else "ai"), m.message))

/-- Messages allowed per chat per window (config.py line 35). -/
def RATE_LIMIT_PER_CHAT : Nat := 20

/-- Window length in seconds (config.py line 36). -/
def RATE_LIMIT_WINDOW : Int := 3600

/-- `RateLimiter.is_allowed` (bot.py lines 66-85).  The limiter's state is
the dict `self.requests`, modelled as a total map defaulting to `[]` (the
code creates the missing entry with `[]`, which is indistinguishable).
The call first evicts entries `t` with `¬ (now - t < RATE_LIMIT_WINDOW)`
from the called chat's list, then denies without recording when the kept
list has reached the limit, and otherwise appends `now` and allows. -/
def is_allowed (requests : String → List Int) (chat_id : String) (now : Int) :
    Bool × (String → List Int) :=
  let kept := (requests chat_id).filter (fun t => now - t < RATE_LIMIT_WINDOW)
  if RATE_LIMIT_PER_CHAT ≤ kept.length then
    (false, fun c => if c = chat_id then kept else requests c)
  else
    (true, fun c => if c = chat_id then kept ++ [now] else requests c)

/-- Fold of a sequence of `is_allowed` calls for one chat, returning the
verdicts in order and the final limiter state. -/
def runCalls : (String → List Int) → String → List Int → List Bool × (String → List Int)
  | st, _, [] => ([], st)
  | st, c, now :: rest =>
    let r := is_allowed st c now
    let rr := runCalls r.2 c rest
    (r.1 :: rr.1, rr.2)

/-- Fold of a sequence of `is_allowed` calls across arbitrary chats,
returning the final limiter state. -/
def runMixed : (String → List Int) → List (String × Int) → (String → List Int)
  | st, [] => st
  | st, (c, now) :: rest => runMixed (is_allowed st c now).2 rest

/-- An attempt whose channel closes immediately with no frames. -/
def idleAttempt : AttemptInput := ⟨[], .closed⟩

/-- Terminal frames, at which the frame loop stops. -/
def isTerminal : StreamEvent → Bool
  | .messageEnd _ => true
  | .error => true
  | _ => false

/-- Concatenation, in arrival order, of the payloads of the `message`
frames of a sequence (the spec's characterisation of the aggregated text). -/
def chunkConcat : List StreamEvent → String
  | [] => ""
  | .message s :: rest => s ++ chunkConcat rest
  | _ :: rest => chunkConcat rest

/-- Payload of the last `sources` frame of a sequence, when any
(the spec's characterisation of the final sources list). -/
def lastSources : List StreamEvent → Option (List SourceRef)
  | [] => none
  | .sources l :: rest => some ((lastSources rest).getD l)
  | _ :: rest => lastSources rest

/-- Concatenation of a list of strings. -/
def concatStrings : List String → String
  | [] => ""
  | s :: rest => s ++ concatStrings rest

/-- Trailer as the spec words it: a blank line, the literal marker, then
one line per url-bearing source, numbered by its enumerated position. -/
def spec_trailer (sources : List SourceRef) : String :=
  "\n\n📚 Sources:" ++
    concatStrings
      (sources.enum.filterMap
        (fun p =>
          if p.2.metadata.url = "" then none
          else some ("\n" ++ toString (p.1 + 1) ++ ". " ++ p.2.metadata.url)))

/-! ## Helper lemmas -/

/-- Post-processing never yields the empty string: an empty aggregate is
replaced by the no-content fallback, a non-empty one is returned as-is. -/
theorem finish_response_ne_empty (t : String) (s : List SourceRef) :
    finish_response t s ≠ "" := by
  simp only [finish_response]
  split <;> split
  · intro hc
    exact absurd hc (by decide)
  · assumption
  · intro hc
    exact absurd hc (by decide)
  · assumption

/-- Post-processing of an empty aggregate yields the no-content fallback. -/
theorem finish_response_empty (s : List SourceRef) :
    finish_response "" s = no_content_fallback := by
  simp [finish_response]

/-- Processing a run of non-terminal frames is the fold of `stepEvent`. -/
theorem consume_frames_append (isFinal : Bool) :
    ∀ (pre : List StreamEvent), (∀ e ∈ pre, isTerminal e = false) →
    ∀ (st : String × List SourceRef) (evs : List StreamEvent) (term : Termination),
    consume_frames isFinal st (pre ++ evs) term
      = consume_frames isFinal (pre.foldl stepEvent st) evs term := by
  intro pre
  induction pre with
  | nil => intro _ st evs term; rfl
  | cons e rest ih =>
    intro h st evs term
    have he := h e (by simp)
    have hr : ∀ x ∈ rest, isTerminal x = false := fun x hx => h x (by simp [hx])
    cases e with
    | sources l => simpa [consume_frames, stepEvent] using ih hr (stepEvent st (.sources l)) evs term
    | message s => simpa [consume_frames, stepEvent] using ih hr (stepEvent st (.message s)) evs term
    | unknown => simpa [consume_frames, stepEvent] using ih hr (stepEvent st .unknown) evs term
    | messageEnd mid => simp [isTerminal] at he
    | error => simp [isTerminal] at he

/-- The accumulated text component of the fold is the initial text followed
by the concatenation of the `message` payloads. -/
theorem foldl_stepEvent_fst :
    ∀ (evs : List StreamEvent) (st : String × List SourceRef),
    (evs.foldl stepEvent st).1 = st.1 ++ chunkConcat evs := by
  intro evs
  induction evs with
  | nil => intro st; simp [chunkConcat]
  | cons e rest ih =>
    intro st
    cases e <;> simp [chunkConcat, stepEvent, ih, String.append_assoc]

/-- The sources component of the fold is the first 3 of the last `sources`
payload, or the initial sources when no `sources` frame occurs. -/
theorem foldl_stepEvent_snd :
    ∀ (evs : List StreamEvent) (st : String × List SourceRef),
    (evs.foldl stepEvent st).2
      = match lastSources evs with
        | none => st.2
        | some l => l.take 3 := by
  intro evs
  induction evs with
  | nil => intro st; rfl
  | cons e rest ih =>
    intro st
    cases e with
    | sources l =>
      simp only [List.foldl_cons, stepEvent, lastSources, ih]
      cases h : lastSources rest <;> simp [h]
    | message s => simpa [lastSources, stepEvent] using ih (st.1 ++ s, st.2)
    | messageEnd mid => simpa [lastSources, stepEvent] using ih st
    | error => simpa [lastSources, stepEvent] using ih st
    | unknown => simpa [lastSources, stepEvent] using ih st

/-- Whenever the frame loop returns a string, that string is non-empty. -/
theorem consume_frames_returned_ne (isFinal : Bool) :
    ∀ (evs : List StreamEvent) (st : String × List SourceRef) (term : Termination)
      (s : String), consume_frames isFinal st evs term = .returned s → s ≠ "" := by
  intro evs
  induction evs with
  | nil =>
    intro st term s h
    cases term <;> simp [consume_frames] at h
    exact h ▸ finish_response_ne_empty st.1 st.2
  | cons e rest ih =>
    intro st term s h
    cases e with
    | sources l => exact ih (stepEvent st (.sources l)) term s (by simpa [consume_frames] using h)
    | message m => exact ih (stepEvent st (.message m)) term s (by simpa [consume_frames] using h)
    | unknown => exact ih (stepEvent st .unknown) term s (by simpa [consume_frames] using h)
    | messageEnd mid =>
      simp [consume_frames] at h
      exact h ▸ finish_response_ne_empty st.1 st.2
    | error =>
      cases isFinal <;> simp [consume_frames] at h
      · exact h ▸ finish_response_ne_empty st.1 st.2
      · exact h ▸ (by decide : error_fallback ≠ "")

/-- `get_response` always produces a non-empty string. -/
theorem get_response_fst_ne (a0 a1 a2 : AttemptInput) : (get_response a0 a1 a2).1 ≠ "" := by
  unfold get_response
  rcases h0 : run_attempt false a0 with s0 | t0
  · simpa using consume_frames_returned_ne false a0.events ("", []) a0.term s0 h0
  · rcases h1 : run_attempt false a1 with s1 | t1
    · simpa using consume_frames_returned_ne false a1.events ("", []) a1.term s1 h1
    · rcases h2 : run_attempt true a2 with s2 | t2
      · simpa using consume_frames_returned_ne true a2.events ("", []) a2.term s2 h2
      · cases t2 <;> dsimp only <;> decide

/-- The per-key list length bound is preserved by any `is_allowed` call. -/
theorem is_allowed_length_le (st : String → List Int) (c x : String) (now : Int)
    (h : (st x).length ≤ RATE_LIMIT_PER_CHAT) :
    ((is_allowed st c now).2 x).length ≤ RATE_LIMIT_PER_CHAT := by
  unfold is_allowed
  dsimp only
  by_cases hle :
      RATE_LIMIT_PER_CHAT ≤ ((st c).filter (fun t => now - t < RATE_LIMIT_WINDOW)).length
  · rw [if_pos hle]
    dsimp only
    by_cases hx : x = c
    · subst hx
      simp only [if_pos rfl]
      exact le_trans (List.length_filter_le _ _) h
    · simpa [hx] using h
  · rw [if_neg hle]
    dsimp only
    by_cases hx : x = c
    · subst hx
      rw [if_pos rfl, List.length_append]
      simp only [List.length_singleton]
      omega
    · simpa [hx] using h

/-- Starting from any state whose lists are all within the budget, any
sequence of interleaved calls keeps every list within the budget. -/
theorem runMixed_bound :
    ∀ (calls : List (String × Int)) (st : String → List Int),
    (∀ c, (st c).length ≤ RATE_LIMIT_PER_CHAT) →
    ∀ c, ((runMixed st calls) c).length ≤ RATE_LIMIT_PER_CHAT := by
  intro calls
  induction calls with
  | nil => intro st h c; exact h c
  | cons p rest ih =>
    intro st h c
    obtain ⟨pc, pn⟩ := p
    simp only [runMixed]
    exact ih _ (fun c2 => is_allowed_length_le st pc c2 pn (h c2)) c

/-- Folding the trailer lines equals appending the concatenation of the
lines kept by the url filter. -/
theorem trailer_foldl_eq :
    ∀ (l : List (Nat × SourceRef)) (acc : String),
    l.foldl
        (fun acc p =>
          if p.2.metadata.url = "" then acc
          else acc ++ "\n" ++ toString (p.1 + 1) ++ ". " ++ p.2.metadata.url) acc
      = acc ++ concatStrings
          (l.filterMap
            (fun p =>
              if p.2.metadata.url = "" then none
              else some ("\n" ++ toString (p.1 + 1) ++ ". " ++ p.2.metadata.url))) := by
  intro l
  induction l with
  | nil => intro acc; simp [concatStrings]
  | cons p rest ih =>
    intro acc
    by_cases hc : p.2.metadata.url = ""
    · simp [hc, ih]
    · simp only [List.foldl_cons, List.filterMap_cons, if_neg hc, concatStrings, ih]
      simp [String.append_assoc]

/-- The trailer built by the code equals the trailer as the spec words it. -/
theorem sourcesTrailer_eq_spec (srcs : List SourceRef) :
    sourcesTrailer srcs = spec_trailer srcs := by
  unfold sourcesTrailer spec_trailer
  exact trailer_foldl_eq srcs.enum "\n\n📚 Sources:"

/-! ## Claims -/

/-- C1: the spec states that a terminal error frame on a non-final attempt
is retried, and only on the final attempt maps to the error fallback.  The
code does not retry: `break` on ai_client.py line 120 exits only the frame
loop and lands on the unconditional `return` of line 132, so the first
attempt ends the call.  Here: an error frame on attempt 1 returns the
no-content fallback (or the partial text) immediately, never reaching the
second attempt whose stream would have produced `"recovered"`. -/
theorem claim_C1_error_frame_not_retried :
    get_response ⟨[.error], .closed⟩
        ⟨[.message "recovered", .messageEnd none], .closed⟩ idleAttempt
      = (no_content_fallback, 0) ∧
    get_response ⟨[.message "part", .error], .closed⟩
        ⟨[.message "recovered", .messageEnd none], .closed⟩ idleAttempt
      = ("part", 0) ∧
    no_content_fallback ≠ "recovered" ∧ ("part" : String) ≠ "recovered" := by
  refine ⟨by decide, by decide, by decide, by decide⟩

/-- C2 counterexample: a channel that closes after delivering only the
chunk `"halfway"` and no terminal frame is not retried as a protocol
error: the call returns the aggregate of that very attempt, with zero
backoff sleeps, never reaching the second attempt's full answer. -/
theorem claim_C2_counterexample :
    get_response ⟨[.message "halfway"], .closed⟩
        ⟨[.message "full answer", .messageEnd none], .closed⟩ idleAttempt
      = ("halfway", 0) ∧ ("halfway" : String) ≠ "full answer" := by
  refine ⟨by decide, by decide⟩

/-- C2 (amended): when the channel closes before any terminal frame, the
attempt is treated as a successful aggregation of whatever arrived: the
call returns the post-processed folded state of that attempt at once,
with no retry and no backoff. -/
theorem claim_C2_channel_close_treated_as_success
    (pre : List StreamEvent) (a1 a2 : AttemptInput)
    (hpre : ∀ e ∈ pre, isTerminal e = false) :
    get_response ⟨pre, .closed⟩ a1 a2
      = (finish_response (pre.foldl stepEvent ("", [])).1
          (pre.foldl stepEvent ("", [])).2, 0) := by
  have hra : run_attempt false ⟨pre, .closed⟩
      = .returned (finish_response (pre.foldl stepEvent ("", [])).1
          (pre.foldl stepEvent ("", [])).2) := by
    show consume_frames false ("", []) pre .closed = _
    have h2 := consume_frames_append false pre hpre ("", []) [] .closed
    rw [List.append_nil] at h2
    rw [h2]
    simp [consume_frames]
  unfold get_response
  rw [hra]

/-- Witness for C2: the channel closing after one chunk returns that chunk. -/
theorem claim_C2_channel_close_treated_as_success_witness :
    get_response ⟨[StreamEvent.message "halfway"], .closed⟩ idleAttempt idleAttempt
      = ("halfway", 0) :=
  (claim_C2_channel_close_treated_as_success [.message "halfway"] idleAttempt idleAttempt
      (by decide)).trans (by decide)

/-- C3: once the kept (in-window) timestamps of a chat reach
`RATE_LIMIT_PER_CHAT`, the call is denied and records nothing beyond the
lazy eviction; and a saturated window whose entries stay inside the window
of every later call denies every one of those calls while the whole
limiter state stays unchanged. -/
theorem claim_C3_rate_limit_saturation :
    (∀ (st : String → List Int) (c : String) (now : Int),
        RATE_LIMIT_PER_CHAT
            ≤ ((st c).filter (fun t => now - t < RATE_LIMIT_WINDOW)).length →
        (is_allowed st c now).1 = false ∧
          (is_allowed st c now).2 c
            = (st c).filter (fun t => now - t < RATE_LIMIT_WINDOW)) ∧
    (∀ (st : String → List Int) (c : String) (calls : List Int),
        RATE_LIMIT_PER_CHAT ≤ (st c).length →
        (∀ t ∈ st c, ∀ now ∈ calls, now - t < RATE_LIMIT_WINDOW) →
        (runCalls st c calls).1 = List.replicate calls.length false ∧
          ∀ x, (runCalls st c calls).2 x = st x) := by
  constructor
  · intro st c now h
    unfold is_allowed
    dsimp only
    rw [if_pos h]
    exact ⟨rfl, by simp⟩
  · intro st c calls
    induction calls generalizing st with
    | nil => intro _ _; exact ⟨rfl, fun x => rfl⟩
    | cons now rest ih =>
      intro hlen hwin
      have hkeep : (st c).filter (fun t => now - t < RATE_LIMIT_WINDOW) = st c :=
        List.filter_eq_self.mpr
          (fun t ht => by simpa using hwin t ht now (by simp))
      have hia : is_allowed st c now
          = (false, fun x => if x = c then
              (st c).filter (fun t => now - t < RATE_LIMIT_WINDOW) else st x) := by
        unfold is_allowed
        dsimp only
        rw [if_pos (by rw [hkeep]; exact hlen)]
      have hst2 : ∀ x,
          (fun x => if x = c then
              (st c).filter (fun t => now - t < RATE_LIMIT_WINDOW) else st x) x = st x := by
        intro x
        by_cases hx : x = c
        · subst hx; simp [hkeep]
        · simp [hx]
      have hrec := ih (fun x => if x = c then
          (st c).filter (fun t => now - t < RATE_LIMIT_WINDOW) else st x)
        (by
          have hc := hst2 c
          rw [hc]
          exact hlen)
        (by
          intro t ht now2 hn2
          have hc := hst2 c
          rw [hc] at ht
          exact hwin t ht now2 (by simp [hn2]))
      simp only [runCalls, hia]
      refine ⟨?_, ?_⟩
      · simp only [List.length_cons, List.replicate_succ]
        exact congrArg _ hrec.1
      · intro x
        exact (hrec.2 x).trans (hst2 x)

/-- Witness for C3: a window of 20 in-window timestamps denies a call,
records nothing, and keeps denying over further calls. -/
theorem claim_C3_rate_limit_saturation_witness :
    (is_allowed (fun _ => List.replicate 20 (0 : Int)) "c" 5).1 = false ∧
    (is_allowed (fun _ => List.replicate 20 (0 : Int)) "c" 5).2 "c"
      = List.replicate 20 (0 : Int) ∧
    (runCalls (fun _ => List.replicate 20 (0 : Int)) "c" [5, 6]).1 = [false, false] := by
  have h1 := claim_C3_rate_limit_saturation.1
    (fun _ => List.replicate 20 (0 : Int)) "c" 5 (by decide)
  have h2 := claim_C3_rate_limit_saturation.2
    (fun _ => List.replicate 20 (0 : Int)) "c" [5, 6] (by decide) (by decide)
  exact ⟨h1.1, h1.2.trans (by decide), h2.1.trans (by decide)⟩

/-- C4 counterexample: the trailer marker the code emits is `"📚 Sources:"`,
not the bare `"Sources:"` of the claim, so the claimed exact final string is
wrong; and a url-less source still consumes its position, so the first
listed url can be numbered 2, not 1. -/
theorem claim_C4_counterexample :
    get_response
        ⟨[.sources [⟨⟨"https://docs"⟩⟩], .message "Cairo ", .message "is a language.",
          .messageEnd none], .closed⟩ idleAttempt idleAttempt
      = ("Cairo is a language.\n\n📚 Sources:\n1. https://docs", 0) ∧
    ("Cairo is a language.\n\n📚 Sources:\n1. https://docs" : String)
      ≠ "Cairo is a language.\n\nSources:\n1. https://docs" ∧
    get_response
        ⟨[.sources [⟨⟨""⟩⟩, ⟨⟨"https://b"⟩⟩], .message "x", .messageEnd none], .closed⟩
        idleAttempt idleAttempt
      = ("x\n\n📚 Sources:\n2. https://b", 0) := by
  refine ⟨by decide, by decide, by decide⟩

/-- C4 (amended): on success with non-empty text and non-empty sources the
trailer is separated from the body by a blank line, uses the literal marker
`"📚 Sources:"`, and lists each url-bearing source numbered by its 1-based
position in the stored sources list (url-less sources are skipped but still
consume their position); the spec example therefore ends in
`"\n\n📚 Sources:\n1. https://docs"`. -/
theorem claim_C4_trailer_format :
    (∀ srcs : List SourceRef, sourcesTrailer srcs = spec_trailer srcs) ∧
    get_response
        ⟨[.sources [⟨⟨"https://docs"⟩⟩], .message "Cairo ", .message "is a language.",
          .messageEnd none], .closed⟩ idleAttempt idleAttempt
      = ("Cairo is a language." ++ "\n\n📚 Sources:" ++ "\n1. https://docs", 0) :=
  ⟨sourcesTrailer_eq_spec, by decide⟩

/-- C5: three attempts all raising `TimeoutError` return the timeout
fallback after two 1-second sleeps; three attempts all raising connection
failures return the generic connect fallback; the two strings differ; the
backoff is 1 second; and no run ever sleeps more than twice (at most 3
attempts, pauses only between consecutive attempts). -/
theorem claim_C5_retry_budget_and_fallbacks :
    get_response ⟨[], .timeoutError⟩ ⟨[], .timeoutError⟩ ⟨[], .timeoutError⟩
        = (timeout_fallback, 2 * BACKOFF_SECONDS) ∧
    get_response ⟨[], .otherError⟩ ⟨[], .otherError⟩ ⟨[], .otherError⟩
        = (connect_fallback, 2 * BACKOFF_SECONDS) ∧
    timeout_fallback ≠ connect_fallback ∧
    BACKOFF_SECONDS = 1 ∧
    ∀ a0 a1 a2 : AttemptInput, (get_response a0 a1 a2).2 ≤ 2 * BACKOFF_SECONDS := by
  refine ⟨by decide, by decide, by decide, rfl, ?_⟩
  intro a0 a1 a2
  unfold get_response
  rcases run_attempt false a0 with s0 | t0
  · exact Nat.zero_le _
  · rcases run_attempt false a1 with s1 | t1
    · show BACKOFF_SECONDS ≤ 2 * BACKOFF_SECONDS
      decide
    · rcases run_attempt true a2 with s2 | t2
      · show 2 * BACKOFF_SECONDS ≤ 2 * BACKOFF_SECONDS
        exact le_rfl
      · show 2 * BACKOFF_SECONDS ≤ 2 * BACKOFF_SECONDS
        exact le_rfl

/-- C6: over any run of non-terminal frames, the folded text is the
concatenation of the `message` payloads in arrival order and the folded
sources are the first 3 of the last `sources` payload (each `sources`
frame replaces the previous list); folding
`[Chunk "a", Chunk "b", Sources [s1,s2,s3,s4]]` yields `"ab"` with exactly
`[s1,s2,s3]`, and with a closing `messageEnd` the attempt returns the
correctly numbered trailer. -/
theorem claim_C6_aggregation :
    (∀ evs : List StreamEvent, (∀ e ∈ evs, isTerminal e = false) →
        (evs.foldl stepEvent ("", [])).1 = chunkConcat evs ∧
        (evs.foldl stepEvent ("", [])).2 = ((lastSources evs).getD []).take 3) ∧
    List.foldl stepEvent ("", [])
        [.message "a", .message "b",
          .sources [⟨⟨"https://u1"⟩⟩, ⟨⟨"https://u2"⟩⟩, ⟨⟨"https://u3"⟩⟩, ⟨⟨"https://u4"⟩⟩]]
      = ("ab", [⟨⟨"https://u1"⟩⟩, ⟨⟨"https://u2"⟩⟩, ⟨⟨"https://u3"⟩⟩]) ∧
    consume_frames false ("", [])
        [.message "a", .message "b",
          .sources [⟨⟨"https://u1"⟩⟩, ⟨⟨"https://u2"⟩⟩, ⟨⟨"https://u3"⟩⟩, ⟨⟨"https://u4"⟩⟩],
          .messageEnd none] .closed
      = .returned "ab\n\n📚 Sources:\n1. https://u1\n2. https://u2\n3. https://u3" := by
  refine ⟨?_, by decide, by decide⟩
  intro evs hnt
  refine ⟨foldl_stepEvent_fst evs ("", []), ?_⟩
  rw [foldl_stepEvent_snd evs ("", [])]
  cases hl : lastSources evs <;> simp [hl]

/-- Witness for C6: a single chunk folds to its own text with no sources. -/
theorem claim_C6_aggregation_witness :
    (List.foldl stepEvent ("", []) [StreamEvent.message "a"]).1 = "a" ∧
    (List.foldl stepEvent ("", []) [StreamEvent.message "a"]).2 = [] := by
  have h := claim_C6_aggregation.1 [StreamEvent.message "a"] (by decide)
  exact ⟨h.1.trans (by decide), h.2.trans (by decide)⟩

/-- C7: the history window keeps exactly `min N 6` turns — the most recent
ones, oldest-first — and maps each turn's platform role to the two-value
protocol role (`"user"` becomes `"human"`, anything else `"ai"`); empty
input yields empty output. -/
theorem claim_C7_history_window :
    (∀ h : List HistTurn,
        (formatted_history h).length = min h.length 6 ∧
        ∀ i : Nat,
          (formatted_history h)[i]?
            = (h[h.length - 6 + i]?).map
                (fun m => ((if m.role = "user" then "human" else "ai"), m.message))) ∧
    formatted_history [] = [] := by
  constructor
  · intro h
    constructor
    · unfold formatted_history
      rw [List.length_map, List.length_drop]
      omega
    · intro i
      unfold formatted_history
      rw [List.getElem?_map, List.getElem?_drop]
  · rfl

/-- C8: an attempt that sees `messageEnd` with empty accumulated text
resolves the whole call at once to the no-content fallback — with no
further attempts and no backoff when it is the first attempt, and with the
same fallback (not an exhaustion fallback) when it is the final attempt
after two raised ones. -/
theorem claim_C8_empty_text_success (pre : List StreamEvent) (mid : Option String)
    (rest : List StreamEvent) (term : Termination) (a1 a2 : AttemptInput)
    (hpre : ∀ e ∈ pre, isTerminal e = false)
    (htext : (pre.foldl stepEvent ("", [])).1 = "") :
    get_response ⟨pre ++ StreamEvent.messageEnd mid :: rest, term⟩ a1 a2
        = (no_content_fallback, 0) ∧
    get_response ⟨[], .timeoutError⟩ ⟨[], .otherError⟩
        ⟨pre ++ StreamEvent.messageEnd mid :: rest, term⟩
        = (no_content_fallback, 2 * BACKOFF_SECONDS) := by
  have hc : ∀ isFinal,
      consume_frames isFinal ("", []) (pre ++ .messageEnd mid :: rest) term
        = .returned no_content_fallback := by
    intro isFinal
    rw [consume_frames_append isFinal pre hpre]
    have hfr : finish_response (pre.foldl stepEvent ("", [])).1
        (pre.foldl stepEvent ("", [])).2 = no_content_fallback := by
      rw [htext]
      exact finish_response_empty _
    simp [consume_frames, hfr]
  constructor
  · unfold get_response
    have h0 : run_attempt false ⟨pre ++ .messageEnd mid :: rest, term⟩
        = .returned no_content_fallback := hc false
    rw [h0]
  · unfold get_response
    have ha : run_attempt false ⟨[], Termination.timeoutError⟩ = .raised true := rfl
    have hb : run_attempt false ⟨[], Termination.otherError⟩ = .raised false := rfl
    have h2 : run_attempt true ⟨pre ++ .messageEnd mid :: rest, term⟩
        = .returned no_content_fallback := hc true
    rw [ha, hb, h2]

/-- Witness for C8: an immediate empty `messageEnd` yields the fallback. -/
theorem claim_C8_empty_text_success_witness :
    get_response ⟨[StreamEvent.messageEnd none], Termination.closed⟩ idleAttempt idleAttempt
      = (no_content_fallback, 0) :=
  (claim_C8_empty_text_success [] none [] .closed idleAttempt idleAttempt
    (by decide) (by decide)).1

/-- C9: the call is total — every run returns a (non-empty, displayable)
string for its caller — and a malformed frame, modelled as the in-flight
exception ending the stream, makes the attempt a raised failure handled
inside the retry loop rather than a crash or a partial success. -/
theorem claim_C9_total_protocol_safe :
    (∀ a0 a1 a2 : AttemptInput, (get_response a0 a1 a2).1 ≠ "") ∧
    (∀ (evs : List StreamEvent) (isFinal : Bool),
        (∀ e ∈ evs, isTerminal e = false) →
        consume_frames isFinal ("", []) evs Termination.otherError
          = AttemptOutcome.raised false) := by
  constructor
  · exact get_response_fst_ne
  · intro evs isFinal hevs
    have h := consume_frames_append isFinal evs hevs ("", []) [] .otherError
    rw [List.append_nil] at h
    exact h.trans (by simp [consume_frames])

/-- Witness for C9: an empty stream ending in a non-timeout exception is a
raised non-timeout attempt. -/
theorem claim_C9_total_protocol_safe_witness :
    consume_frames false ("", []) [] Termination.otherError
      = AttemptOutcome.raised false :=
  claim_C9_total_protocol_safe.2 [] false (by decide)

/-- C10: after any call, the called chat's stored list has at most
`RATE_LIMIT_PER_CHAT` entries, all within `RATE_LIMIT_WINDOW` seconds of
that call's time, and other chats' lists are untouched; starting from the
empty state, any interleaved call sequence keeps every list within the
bound. -/
theorem claim_C10_window_invariant :
    (∀ (st : String → List Int) (c : String) (now : Int),
        (st c).length ≤ RATE_LIMIT_PER_CHAT →
        ((is_allowed st c now).2 c).length ≤ RATE_LIMIT_PER_CHAT ∧
        (∀ t ∈ (is_allowed st c now).2 c, now - t < RATE_LIMIT_WINDOW) ∧
        (∀ x, x ≠ c → (is_allowed st c now).2 x = st x)) ∧
    (∀ (calls : List (String × Int)) (c : String),
        ((runMixed (fun _ => []) calls) c).length ≤ RATE_LIMIT_PER_CHAT) := by
  constructor
  · intro st c now hlen
    by_cases hle : RATE_LIMIT_PER_CHAT
        ≤ ((st c).filter (fun t => now - t < RATE_LIMIT_WINDOW)).length
    · have he : (is_allowed st c now).2 c
          = (st c).filter (fun t => now - t < RATE_LIMIT_WINDOW) := by
        unfold is_allowed
        dsimp only
        rw [if_pos hle]
        simp
      have hx2 : ∀ x, x ≠ c → (is_allowed st c now).2 x = st x := by
        intro x hx
        unfold is_allowed
        dsimp only
        rw [if_pos hle]
        simp [hx]
      refine ⟨?_, ?_, hx2⟩
      · rw [he]
        exact le_trans (List.length_filter_le _ _) hlen
      · intro t ht
        rw [he] at ht
        have hm := List.mem_filter.mp ht
        simpa using hm.2
    · have he : (is_allowed st c now).2 c
          = (st c).filter (fun t => now - t < RATE_LIMIT_WINDOW) ++ [now] := by
        unfold is_allowed
        dsimp only
        rw [if_neg hle]
        simp
      have hx2 : ∀ x, x ≠ c → (is_allowed st c now).2 x = st x := by
        intro x hx
        unfold is_allowed
        dsimp only
        rw [if_neg hle]
        simp [hx]
      refine ⟨?_, ?_, hx2⟩
      · rw [he, List.length_append]
        simp only [List.length_singleton]
        omega
      · intro t ht
        rw [he] at ht
        rcases List.mem_append.mp ht with h1 | h1
        · have hm := List.mem_filter.mp h1
          simpa using hm.2
        · have ht2 : t = now := by simpa using h1
          subst ht2
          rw [sub_self]
          decide
  · intro calls c
    exact runMixed_bound calls (fun _ => []) (fun c2 => by simp) c

/-- Witness for C10: a first call on the empty state stores at most the
allowed number of timestamps. -/
theorem claim_C10_window_invariant_witness :
    ((is_allowed (fun _ => ([] : List Int)) "c" 0).2 "c").length ≤ RATE_LIMIT_PER_CHAT :=
  (claim_C10_window_invariant.1 (fun _ => ([] : List Int)) "c" 0 (by decide)).1
